import Mathlib

/-!
Verification development for the dropout-rescue repository.

The repository ships a Next.js frontend (under `frontend/app`) and a FastAPI
backend (`backend/server.py`, referenced by the README but not present in the
source tree).  The participation core — Capacity Calculator, Participation
State Machine, Promotion Engine and Notification Dispatcher — lives in that
backend, so it is modelled here from the specification (`spec.md` §3–§7);
every such definition carries a doc comment starting `Modelled from the
spec:`.  The frontend helpers (`getReliabilityBadge`, `markAsRead`) are
embedded directly from the TypeScript source.
-/

namespace DropoutRescue

/-- Modelled from the spec: Participation status (spec §3, §4.2) — the three
active statuses; WITHDRAWN/DECLINED are deletions, not retained states.
The missing code is `backend/server.py`. -/
inductive PStatus where
  | REQUESTED
  | CONFIRMED
  | RESERVE
deriving DecidableEq, Repr

/-- Modelled from the spec: session status derived by the Capacity
Calculator (spec §4.1).  The missing code is `backend/server.py`. -/
inductive SStatus where
  | OPEN
  | FULL
deriving DecidableEq, Repr

/-- Modelled from the spec: the error taxonomy of spec §7.
The missing code is `backend/server.py`. -/
inductive CoreError where
  | NotAuthorized
  | InvalidState
  | NotFound
  | SessionClosed
deriving DecidableEq, Repr

/-- Modelled from the spec: a Participation record (spec §3): id, session id,
user id, status, creation timestamp.  The missing code is
`backend/server.py`. -/
structure Participation where
  id : Nat
  sessionId : Nat
  userId : Nat
  status : PStatus
  createdAt : Nat
deriving DecidableEq, Repr

/-- Modelled from the spec: the Session fields the core branches on
(spec §3): id, organiser id, slots required (fixed at creation), whether the
scheduled time has passed, and the organiser policy of §9 allowing reserve
joins while the session is still open.  The missing code is
`backend/server.py`. -/
structure Session where
  id : Nat
  organiserId : Nat
  slotsRequired : Nat
  isPast : Bool
  allowReserveWhenOpen : Bool
deriving DecidableEq, Repr

/-- Modelled from the spec: the notification event kinds of spec §4.4.
The missing code is `backend/server.py`. -/
inductive NotifType where
  | NEW_REQUEST
  | NEW_RESERVE
  | PLAYER_WITHDREW
  | PROMOTED
deriving DecidableEq, Repr

/-- Modelled from the spec: a notification (spec §3): recipient, kind,
related session id.  The missing code is `backend/server.py`. -/
structure Notification where
  recipientId : Nat
  kind : NotifType
  sessionId : Nat
deriving DecidableEq, Repr

/-- Modelled from the spec: an authenticated actor as yielded by the Identity
Provider (spec §2): user id plus admin flag.  The missing code is
`backend/server.py`. -/
structure Actor where
  id : Nat
  isAdmin : Bool
deriving DecidableEq, Repr

/-- Modelled from the spec: the state the core mutates for one session —
the Session record, its Participation set, the notifications enqueued so
far, and a fresh-id counter (ids double as creation timestamps, so later
creations carry larger `createdAt`).  The missing code is
`backend/server.py`. -/
structure CoreState where
  session : Session
  parts : List Participation
  notifs : List Notification
  nextId : Nat
deriving DecidableEq, Repr

/-- Modelled from the spec: count of participations of one status for a
session (spec §4.1).  The missing code is `backend/server.py`. -/
def countStatus (sid : Nat) (s : PStatus) (ps : List Participation) : Nat :=
  ps.countP (fun p => decide (p.sessionId = sid ∧ p.status = s))

/-- Modelled from the spec: the capacity snapshot returned by the Capacity
Calculator (spec §4.1, §6).  `open_slots` is an integer so that "never
negative" is a provable statement rather than a typing artefact.
The missing code is `backend/server.py`. -/
structure Capacity where
  confirmed_count : Nat
  reserve_count : Nat
  open_slots : Int
  status : SStatus
deriving DecidableEq, Repr

/-- Modelled from the spec: the Capacity Calculator itself (spec §4.1):
`open_slots = max(slots_required - confirmed_count, 0)`, `status = FULL`
iff `open_slots == 0`, else `OPEN`.  The missing code is
`backend/server.py`. -/
def compute (s : Session) (ps : List Participation) : Capacity :=
  let cc := countStatus s.id PStatus.CONFIRMED ps
  let rc := countStatus s.id PStatus.RESERVE ps
  let os : Int := max ((s.slotsRequired : Int) - (cc : Int)) 0
  { confirmed_count := cc
    reserve_count := rc
    open_slots := os
    status := if os = 0 then SStatus.FULL else SStatus.OPEN }

/-- Modelled from the spec: does the user already hold an active
participation for the session (spec §3 invariant)?  All stored
participations are active — deletion removes the record.  The missing code
is `backend/server.py`. -/
def hasActive (sid uid : Nat) (ps : List Participation) : Bool :=
  ps.any (fun p => decide (p.sessionId = sid ∧ p.userId = uid))

/-- Modelled from the spec: the capability predicate of spec §9:
`canManage(actor, session) = actor.isAdmin || actor.id == session.organiserId`.
The missing code is `backend/server.py`. -/
def canManage (a : Actor) (s : Session) : Bool :=
  a.isAdmin || decide (a.id = s.organiserId)

/-- Modelled from the spec: look a participation up by id.  The missing
code is `backend/server.py`. -/
def findPart (pid : Nat) (ps : List Participation) : Option Participation :=
  ps.find? (fun p => decide (p.id = pid))

/-- Modelled from the spec: in-place status update of the participation
with the given id (spec §4.2 mutates records via the State Machine).
The missing code is `backend/server.py`. -/
def setStatus (pid : Nat) (s : PStatus) (ps : List Participation) :
    List Participation :=
  ps.map (fun p => if p.id = pid then { p with status := s } else p)

/-- Modelled from the spec: deletion of the participation with the given id
(decline / removal / withdrawal all delete, spec §4.2).  The missing code
is `backend/server.py`. -/
def removePart (pid : Nat) (ps : List Participation) : List Participation :=
  ps.filter (fun p => decide (p.id ≠ pid))

/-- Modelled from the spec: the FIFO order of the Promotion Engine
(spec §4.3): earlier creation timestamp first, ties broken by participation
id.  The missing code is `backend/server.py`. -/
def keyLt (p q : Participation) : Bool :=
  decide (p.createdAt < q.createdAt) ||
    (decide (p.createdAt = q.createdAt) && decide (p.id < q.id))

/-- Modelled from the spec: the reserve list of a session.  The missing
code is `backend/server.py`. -/
def reserves (sid : Nat) (ps : List Participation) : List Participation :=
  ps.filter (fun p => decide (p.sessionId = sid ∧ p.status = PStatus.RESERVE))

/-- Modelled from the spec: the Promotion Engine's selection (spec §4.3):
the RESERVE participation with the earliest creation timestamp, ties broken
by id; `none` when the reserve list is empty.  The missing code is
`backend/server.py`. -/
def earliestReserve (sid : Nat) (ps : List Participation) :
    Option Participation :=
  match reserves sid ps with
  | [] => none
  | r :: rs => some (rs.foldl (fun best p => if keyLt p best then p else best) r)

/-- Modelled from the spec: one promotion attempt (spec §4.3): promote the
earliest reserve to CONFIRMED and notify them with PROMOTED; when the
reserve list is empty do nothing and raise no error.  The missing code is
`backend/server.py`. -/
def promoteOne (st : CoreState) : CoreState :=
  match earliestReserve st.session.id st.parts with
  | none => st
  | some r =>
      { st with
        parts := setStatus r.id PStatus.CONFIRMED st.parts
        notifs := st.notifs ++ [⟨r.userId, NotifType.PROMOTED, st.session.id⟩] }

/-- Modelled from the spec: the `request spot` action (spec §4.2 table):
actor must not be the organiser (§4.2 authorization rule), no existing
active participation, session not past, `status == OPEN`; creates a
REQUESTED participation and emits NEW_REQUEST to the organiser (§4.4).
The missing code is `backend/server.py`. -/
def requestSpot (st : CoreState) (a : Actor) : Except CoreError CoreState :=
  if a.id = st.session.organiserId then .error .NotAuthorized
  else if hasActive st.session.id a.id st.parts then .error .InvalidState
  else if st.session.isPast then .error .SessionClosed
  else if (compute st.session st.parts).status = SStatus.OPEN then
    .ok { st with
      parts := st.parts ++
        [⟨st.nextId, st.session.id, a.id, PStatus.REQUESTED, st.nextId⟩]
      notifs := st.notifs ++
        [⟨st.session.organiserId, NotifType.NEW_REQUEST, st.session.id⟩]
      nextId := st.nextId + 1 }
  else .error .InvalidState

/-- Modelled from the spec: the `join reserve` action (spec §4.2 table):
actor must not be the organiser, no existing active participation, session
not past, `status == FULL` or the organiser allows reserve joins while
open (§9); creates a RESERVE participation and emits NEW_RESERVE to the
organiser (§4.4).  The missing code is `backend/server.py`. -/
def joinReserve (st : CoreState) (a : Actor) : Except CoreError CoreState :=
  if a.id = st.session.organiserId then .error .NotAuthorized
  else if hasActive st.session.id a.id st.parts then .error .InvalidState
  else if st.session.isPast then .error .SessionClosed
  else if (compute st.session st.parts).status = SStatus.FULL
      ∨ st.session.allowReserveWhenOpen = true then
    .ok { st with
      parts := st.parts ++
        [⟨st.nextId, st.session.id, a.id, PStatus.RESERVE, st.nextId⟩]
      notifs := st.notifs ++
        [⟨st.session.organiserId, NotifType.NEW_RESERVE, st.session.id⟩]
      nextId := st.nextId + 1 }
  else .error .InvalidState

/-- Modelled from the spec: the `approve` action (spec §4.2 table): actor
must manage the session, session not past, participation must be REQUESTED
or RESERVE, `open_slots > 0`; transitions the participation to CONFIRMED
and emits PROMOTED when the origin was RESERVE (the table's "emit PROMOTED
or none depending on origin").  The missing code is `backend/server.py`. -/
def approve (st : CoreState) (a : Actor) (pid : Nat) :
    Except CoreError CoreState :=
  match findPart pid st.parts with
  | none => .error .NotFound
  | some p =>
      if !canManage a st.session then .error .NotAuthorized
      else if st.session.isPast then .error .SessionClosed
      else if ¬(p.status = PStatus.REQUESTED ∨ p.status = PStatus.RESERVE)
        then .error .InvalidState
      else if (compute st.session st.parts).open_slots > 0 then
        .ok { st with
          parts := setStatus pid PStatus.CONFIRMED st.parts
          notifs := st.notifs ++
            (if p.status = PStatus.RESERVE then
              [⟨p.userId, NotifType.PROMOTED, st.session.id⟩]
            else []) }
      else .error .InvalidState

/-- Modelled from the spec: the `decline` action (spec §4.2 table): actor
must manage the session, session not past, participation must be REQUESTED;
deletes the participation, silently.  The missing code is
`backend/server.py`. -/
def decline (st : CoreState) (a : Actor) (pid : Nat) :
    Except CoreError CoreState :=
  match findPart pid st.parts with
  | none => .error .NotFound
  | some p =>
      if !canManage a st.session then .error .NotAuthorized
      else if st.session.isPast then .error .SessionClosed
      else if p.status = PStatus.REQUESTED then
        .ok { st with parts := removePart pid st.parts }
      else .error .InvalidState

/-- Modelled from the spec: the `remove` action (spec §4.2 table): actor
must manage the session, session not past, participation must be CONFIRMED
or RESERVE; deletes it, and when it was CONFIRMED invokes the Promotion
Engine (spec §4.3 fires on withdrawal or organiser removal).  The missing
code is `backend/server.py`. -/
def remove (st : CoreState) (a : Actor) (pid : Nat) :
    Except CoreError CoreState :=
  match findPart pid st.parts with
  | none => .error .NotFound
  | some p =>
      if !canManage a st.session then .error .NotAuthorized
      else if st.session.isPast then .error .SessionClosed
      else if p.status = PStatus.CONFIRMED ∨ p.status = PStatus.RESERVE then
        let st1 : CoreState := { st with parts := removePart pid st.parts }
        .ok (if p.status = PStatus.CONFIRMED then promoteOne st1 else st1)
      else .error .InvalidState

/-- Modelled from the spec: the `withdraw` action (spec §4.2 table): actor
must be the participation's own user, session not past, participation must
be CONFIRMED or RESERVE; deletes it, invokes the Promotion Engine when it
was CONFIRMED, and emits PLAYER_WITHDREW to the organiser (§4.4).  The
missing code is `backend/server.py`. -/
def withdraw (st : CoreState) (a : Actor) (pid : Nat) :
    Except CoreError CoreState :=
  match findPart pid st.parts with
  | none => .error .NotFound
  | some p =>
      if a.id ≠ p.userId then .error .NotAuthorized
      else if st.session.isPast then .error .SessionClosed
      else if p.status = PStatus.CONFIRMED ∨ p.status = PStatus.RESERVE then
        let st1 : CoreState := { st with parts := removePart pid st.parts }
        let st2 : CoreState :=
          if p.status = PStatus.CONFIRMED then promoteOne st1 else st1
        .ok { st2 with
          notifs := st2.notifs ++
            [⟨st.session.organiserId, NotifType.PLAYER_WITHDREW, st.session.id⟩] }
      else .error .InvalidState

/-- Modelled from the spec: the empty state a freshly created session starts
from (no participations, no notifications).  The missing code is
`backend/server.py`. -/
def initState (s : Session) : CoreState :=
  { session := s, parts := [], notifs := [], nextId := 0 }

/-- Modelled from the spec: the states reachable from a fresh session by the
six mutating actions of spec §4.2, each applied only when it succeeds.
The missing code is `backend/server.py`. -/
inductive Reachable : CoreState → Prop where
  | init (s : Session) : Reachable (initState s)
  | request (st st' : CoreState) (a : Actor) :
      Reachable st → requestSpot st a = .ok st' → Reachable st'
  | reserve (st st' : CoreState) (a : Actor) :
      Reachable st → joinReserve st a = .ok st' → Reachable st'
  | approveStep (st st' : CoreState) (a : Actor) (pid : Nat) :
      Reachable st → approve st a pid = .ok st' → Reachable st'
  | declineStep (st st' : CoreState) (a : Actor) (pid : Nat) :
      Reachable st → decline st a pid = .ok st' → Reachable st'
  | removeStep (st st' : CoreState) (a : Actor) (pid : Nat) :
      Reachable st → remove st a pid = .ok st' → Reachable st'
  | withdrawStep (st st' : CoreState) (a : Actor) (pid : Nat) :
      Reachable st → withdraw st a pid = .ok st' → Reachable st'

/-! ## Frontend embeddings (directly from the TypeScript source) -/

/-- The badge value returned by the reliability helpers. -/
structure Badge where
  emoji : String
  label : String
deriving DecidableEq, Repr

namespace GameDetail

/-- The badge of the game-detail page's helper, which also carries a `short`
form (`frontend/app/dashboard/games/[id]/page.tsx`). -/
structure BadgeFull where
  emoji : String
  label : String
  short : String
deriving DecidableEq, Repr

/-- `getReliabilityBadge` from
`frontend/app/dashboard/games/[id]/page.tsx` lines 40–44. -/
def getReliabilityBadge (gamesPlayed : Nat) : BadgeFull :=
  if gamesPlayed = 0 then
    ⟨"🔵", "New (0 games)", "New"⟩
  else if gamesPlayed ≤ 5 then
    ⟨"🟡", "Getting Started (" ++ toString gamesPlayed ++ " games)",
      toString gamesPlayed ++ " games"⟩
  else
    ⟨"🟢", "Regular (" ++ toString gamesPlayed ++ " games)",
      toString gamesPlayed ++ " games"⟩

end GameDetail

namespace AdminPage

/-- `getReliabilityBadge` from
`frontend/app/dashboard/admin/page.tsx` lines 98–102. -/
def getReliabilityBadge (gamesPlayed : Nat) : Badge :=
  if gamesPlayed = 0 then ⟨"🔵", "New"⟩
  else if gamesPlayed ≤ 5 then ⟨"🟡", "Getting Started"⟩
  else ⟨"🟢", "Regular"⟩

end AdminPage

namespace ProfileLayout

/-- `getReliabilityBadge` from
`frontend/app/dashboard/layout.tsx` lines 245–249. -/
def getReliabilityBadge (gamesPlayed : Nat) : Badge :=
  if gamesPlayed = 0 then ⟨"🔵", "New"⟩
  else if gamesPlayed ≤ 5 then
    ⟨"🟡", "Getting Started (" ++ toString gamesPlayed ++ " games)"⟩
  else ⟨"🟢", "Regular (" ++ toString gamesPlayed ++ " games)"⟩

end ProfileLayout

namespace NotificationsPage

/-- The `Notification` interface of
`frontend/app/dashboard/notifications/page.tsx`. -/
structure Notif where
  id : String
  kind : String
  message : String
  game_id : Option String
  created_at : String
  read : Bool
deriving DecidableEq, Repr

/-- The client-side state update of `markAsRead` in
`frontend/app/dashboard/notifications/page.tsx` lines 41–50:
`notifications.map(n => n.id === id ? { ...n, read: true } : n)`. -/
def markAsRead (i : String) (notifications : List Notif) : List Notif :=
  notifications.map (fun n => if n.id == i then { n with read := true } else n)

end NotificationsPage

/-! ## Basic lemmas about the participation-list primitives -/

theorem setStatus_of_not_mem (pid : Nat) (s : PStatus)
    (ps : List Participation) (h : ∀ p ∈ ps, p.id ≠ pid) :
    setStatus pid s ps = ps := by
  induction ps with
  | nil => rfl
  | cons q rest ih =>
      simp only [setStatus, List.map_cons]
      rw [if_neg (h q (by simp))]
      have := ih (fun p hp => h p (by simp [hp]))
      simpa [setStatus] using this

theorem removePart_of_not_mem (pid : Nat) (ps : List Participation)
    (h : ∀ p ∈ ps, p.id ≠ pid) : removePart pid ps = ps := by
  unfold removePart
  rw [List.filter_eq_self]
  intro p hp
  simpa using h p hp

theorem setStatus_map_id (pid : Nat) (s : PStatus) (ps : List Participation) :
    (setStatus pid s ps).map Participation.id = ps.map Participation.id := by
  unfold setStatus
  rw [List.map_map]
  apply List.map_congr_left
  intro p _
  by_cases h : p.id = pid <;> simp [h]

theorem setStatus_map_userId (pid : Nat) (s : PStatus)
    (ps : List Participation) :
    (setStatus pid s ps).map Participation.userId =
      ps.map Participation.userId := by
  unfold setStatus
  rw [List.map_map]
  apply List.map_congr_left
  intro p _
  by_cases h : p.id = pid <;> simp [h]

theorem mem_setStatus (pid : Nat) (s : PStatus) (ps : List Participation)
    (q : Participation) (hq : q ∈ setStatus pid s ps) :
    ∃ p ∈ ps, q.id = p.id ∧ q.userId = p.userId ∧
      q.sessionId = p.sessionId ∧ q.createdAt = p.createdAt := by
  unfold setStatus at hq
  obtain ⟨p, hp, rfl⟩ := List.mem_map.mp hq
  refine ⟨p, hp, ?_⟩
  by_cases h : p.id = pid <;> simp [h]

theorem mem_removePart (pid : Nat) (ps : List Participation)
    (q : Participation) (hq : q ∈ removePart pid ps) : q ∈ ps ∧ q.id ≠ pid := by
  unfold removePart at hq
  have := List.mem_filter.mp hq
  simpa using this

theorem removePart_map_id_sublist (pid : Nat) (ps : List Participation) :
    ((removePart pid ps).map Participation.id).Sublist
      (ps.map Participation.id) :=
  (List.filter_sublist ps).map Participation.id

theorem removePart_map_userId_sublist (pid : Nat) (ps : List Participation) :
    ((removePart pid ps).map Participation.userId).Sublist
      (ps.map Participation.userId) :=
  (List.filter_sublist ps).map Participation.userId

/-- Counting after an in-place status update: the element with the updated
id trades its old status for the new one; everything else is untouched.
Stated additively to avoid truncated subtraction. -/
theorem countStatus_setStatus (sid : Nat) (s s' : PStatus)
    (ps : List Participation) (hnd : (ps.map Participation.id).Nodup)
    (p : Participation) (hp : p ∈ ps) :
    countStatus sid s' (setStatus p.id s ps) +
      (if p.sessionId = sid ∧ p.status = s' then 1 else 0) =
    countStatus sid s' ps +
      (if p.sessionId = sid ∧ s = s' then 1 else 0) := by
  induction ps with
  | nil => cases hp
  | cons q rest ih =>
      simp only [List.map_cons, List.nodup_cons] at hnd
      rcases List.mem_cons.mp hp with rfl | hmem
      · have hrest : setStatus p.id s rest = rest := by
          apply setStatus_of_not_mem
          intro r hr hre
          exact hnd.1 (hre ▸ List.mem_map_of_mem Participation.id hr)
        simp only [setStatus, List.map_cons, if_pos rfl]
        have hrest' : rest.map
            (fun r => if r.id = p.id then { r with status := s } else r) =
            rest := by
          simpa [setStatus] using hrest
        rw [hrest']
        simp only [countStatus, List.countP_cons]
        by_cases hs : p.sessionId = sid
        · by_cases h1 : p.status = s' <;> by_cases h2 : s = s' <;>
            simp [hs, h1, h2]
        · simp [hs]
      · have hqp : q.id ≠ p.id := by
          intro hre
          exact hnd.1 (hre ▸ List.mem_map_of_mem Participation.id hmem)
        have ihh := ih hnd.2 hmem
        simp only [setStatus, countStatus] at ihh
        simp only [setStatus, List.map_cons, if_neg hqp, countStatus,
          List.countP_cons]
        omega

/-- Counting after deletion: the deleted element's contribution is removed;
with distinct ids nothing else changes. -/
theorem countStatus_removePart (sid : Nat) (s' : PStatus)
    (ps : List Participation) (hnd : (ps.map Participation.id).Nodup)
    (p : Participation) (hp : p ∈ ps) :
    countStatus sid s' (removePart p.id ps) +
      (if p.sessionId = sid ∧ p.status = s' then 1 else 0) =
    countStatus sid s' ps := by
  induction ps with
  | nil => cases hp
  | cons q rest ih =>
      simp only [List.map_cons, List.nodup_cons] at hnd
      rcases List.mem_cons.mp hp with rfl | hmem
      · have hrest : removePart p.id rest = rest := by
          apply removePart_of_not_mem
          intro r hr hre
          exact hnd.1 (hre ▸ List.mem_map_of_mem Participation.id hr)
        simp only [removePart, List.filter_cons]
        have : ¬(p.id ≠ p.id) := by simp
        simp only [decide_eq_true_eq, this, if_false]
        have hrest' : rest.filter (fun r => decide (r.id ≠ p.id)) = rest := by
          simpa [removePart] using hrest
        rw [hrest']
        simp only [countStatus, List.countP_cons]
        by_cases hs : p.sessionId = sid
        · by_cases h1 : p.status = s' <;> simp [hs, h1]
        · simp [hs]
      · have hqp : q.id ≠ p.id := by
          intro hre
          exact hnd.1 (hre ▸ List.mem_map_of_mem Participation.id hmem)
        have ihh := ih hnd.2 hmem
        simp only [removePart, countStatus] at ihh ⊢
        rw [List.filter_cons]
        have hd : decide (q.id ≠ p.id) = true := by simp [hqp]
        rw [hd, if_pos rfl, List.countP_cons, List.countP_cons]
        omega

theorem countStatus_append (sid : Nat) (s : PStatus)
    (ps qs : List Participation) :
    countStatus sid s (ps ++ qs) =
      countStatus sid s ps + countStatus sid s qs := by
  simp [countStatus, List.countP_append]

theorem findPart_some (pid : Nat) (ps : List Participation)
    (p : Participation) (h : findPart pid ps = some p) :
    p ∈ ps ∧ p.id = pid := by
  unfold findPart at h
  refine ⟨List.mem_of_find?_eq_some h, ?_⟩
  have := List.find?_some h
  simpa using this

/-! ## Promotion-engine lemmas: FIFO order and minimum selection -/

theorem keyLt_irrefl (p : Participation) : keyLt p p = false := by
  simp [keyLt]

theorem keyLt_trans (a b c : Participation) (hab : keyLt a b = true)
    (hbc : keyLt b c = true) : keyLt a c = true := by
  simp only [keyLt, Bool.or_eq_true, Bool.and_eq_true, decide_eq_true_eq]
    at hab hbc ⊢
  omega

theorem keyLt_total_of_ne (a b : Participation) (h : a.id ≠ b.id) :
    keyLt a b = true ∨ keyLt b a = true := by
  simp only [keyLt, Bool.or_eq_true, Bool.and_eq_true, decide_eq_true_eq]
  rcases Nat.lt_trichotomy a.createdAt b.createdAt with hc | hc | hc
  · left; left; exact hc
  · rcases Nat.lt_or_ge a.id b.id with hi | hi
    · left; right; exact ⟨hc, hi⟩
    · right; right; exact ⟨hc.symm, lt_of_le_of_ne hi (Ne.symm h)⟩
  · right; left; exact hc

/-- The foldl that `earliestReserve` runs returns an element of the list. -/
theorem foldl_min_mem (rs : List Participation) (r : Participation) :
    rs.foldl (fun best p => if keyLt p best then p else best) r ∈ r :: rs := by
  induction rs generalizing r with
  | nil => simp
  | cons p rest ih =>
      simp only [List.foldl_cons]
      by_cases hk : keyLt p r = true
      · rw [if_pos hk]
        exact List.mem_cons_of_mem r (ih p)
      · rw [if_neg hk]
        rcases List.mem_cons.mp (ih r) with h | h
        · rw [h]; exact List.mem_cons_self r _
        · exact List.mem_cons_of_mem r (List.mem_cons_of_mem p h)

/-- Co-transitivity of the FIFO order: `a` earlier than `c` means `a` is
earlier than any `b`, or that `b` is earlier than `c`. -/
theorem keyLt_resolve (a b c : Participation) (h : keyLt a c = true) :
    keyLt a b = true ∨ keyLt b c = true := by
  simp only [keyLt, Bool.or_eq_true, Bool.and_eq_true, decide_eq_true_eq]
    at h ⊢
  omega

/-- No list element is strictly FIFO-earlier than the foldl minimum. -/
theorem foldl_min_not_lt (rs : List Participation) (r : Participation) :
    ∀ q ∈ r :: rs,
      keyLt q (rs.foldl (fun best p => if keyLt p best then p else best) r) =
        false := by
  induction rs generalizing r with
  | nil =>
      intro q hq
      simp only [List.mem_singleton] at hq
      subst hq
      exact keyLt_irrefl q
  | cons p rest ih =>
      intro q hq
      simp only [List.foldl_cons]
      by_cases hk : keyLt p r = true
      · rw [if_pos hk]
        rcases List.mem_cons.mp hq with rfl | hq'
        · by_contra hcon
          have hT : keyLt q
              (rest.foldl (fun best p => if keyLt p best then p else best) p)
                = true := Bool.not_eq_false _ |>.mp hcon
          have hpm := keyLt_trans p q _ hk hT
          have := ih p p (by simp)
          simp [this] at hpm
        · exact ih p q (by simpa using hq')
      · rw [if_neg hk]
        rcases List.mem_cons.mp hq with rfl | hq'
        · exact ih q q (by simp)
        · rcases List.mem_cons.mp hq' with rfl | hq''
          · by_contra hcon
            have hT : keyLt q
                (rest.foldl (fun best p => if keyLt p best then p else best) r)
                  = true := Bool.not_eq_false _ |>.mp hcon
            rcases keyLt_resolve q r _ hT with hqr | hrm
            · exact hk hqr
            · have := ih r r (by simp)
              simp [this] at hrm
          · exact ih r q (by simp [hq''])

theorem mem_reserves (sid : Nat) (ps : List Participation)
    (q : Participation) :
    q ∈ reserves sid ps ↔
      q ∈ ps ∧ q.sessionId = sid ∧ q.status = PStatus.RESERVE := by
  unfold reserves
  rw [List.mem_filter]
  simp

theorem countStatus_reserve_eq_length (sid : Nat) (ps : List Participation) :
    countStatus sid PStatus.RESERVE ps = (reserves sid ps).length := by
  unfold countStatus reserves
  exact List.countP_eq_length_filter _ _

theorem reserves_setStatus_confirmed (sid pid : Nat)
    (ps : List Participation) :
    reserves sid (setStatus pid PStatus.CONFIRMED ps) =
      (reserves sid ps).filter (fun q => decide (q.id ≠ pid)) := by
  induction ps with
  | nil => rfl
  | cons q rest ih =>
      by_cases hid : q.id = pid
      · by_cases hres : q.sessionId = sid ∧ q.status = PStatus.RESERVE
        · simp [reserves, setStatus, List.filter_cons, hid, hres] at ih ⊢
          exact ih
        · simp [reserves, setStatus, List.filter_cons, hid, hres] at ih ⊢
          exact ih
      · by_cases hres : q.sessionId = sid ∧ q.status = PStatus.RESERVE
        · simp [reserves, setStatus, List.filter_cons, hid, hres] at ih ⊢
          exact ih
        · simp [reserves, setStatus, List.filter_cons, hid, hres] at ih ⊢
          exact ih

theorem reserves_removePart (sid pid : Nat) (ps : List Participation) :
    reserves sid (removePart pid ps) =
      (reserves sid ps).filter (fun q => decide (q.id ≠ pid)) := by
  unfold reserves removePart
  rw [List.filter_filter, List.filter_filter]
  apply List.filter_congr
  intro p _
  exact Bool.and_comm _ _

theorem earliestReserve_eq_none (sid : Nat) (ps : List Participation) :
    earliestReserve sid ps = none ↔ reserves sid ps = [] := by
  unfold earliestReserve
  cases reserves sid ps <;> simp

theorem earliestReserve_mem (sid : Nat) (ps : List Participation)
    (r : Participation) (h : earliestReserve sid ps = some r) :
    r ∈ reserves sid ps := by
  unfold earliestReserve at h
  cases hres : reserves sid ps with
  | nil => rw [hres] at h; cases h
  | cons x xs =>
      rw [hres] at h
      simp only [Option.some.injEq] at h
      rw [← h]
      exact foldl_min_mem xs x

theorem earliestReserve_not_lt (sid : Nat) (ps : List Participation)
    (r : Participation) (h : earliestReserve sid ps = some r) :
    ∀ q ∈ reserves sid ps, keyLt q r = false := by
  unfold earliestReserve at h
  cases hres : reserves sid ps with
  | nil => rw [hres] at h; cases h
  | cons x xs =>
      rw [hres] at h
      simp only [Option.some.injEq] at h
      rw [← h]
      exact foldl_min_not_lt xs x

/-- The earliest reserve is strictly FIFO-before every other reserve whose
id differs. -/
theorem earliestReserve_strict_min (sid : Nat) (ps : List Participation)
    (r : Participation) (h : earliestReserve sid ps = some r) :
    ∀ q ∈ reserves sid ps, q.id ≠ r.id → keyLt r q = true := by
  intro q hq hne
  rcases keyLt_total_of_ne q r hne with hlt | hlt
  · have := earliestReserve_not_lt sid ps r h q hq
    rw [this] at hlt
    cases hlt
  · exact hlt

/-! ## Characterisations of the six operations -/

theorem hasActive_eq_false (sid uid : Nat) (ps : List Participation) :
    hasActive sid uid ps = false ↔
      ∀ p ∈ ps, ¬(p.sessionId = sid ∧ p.userId = uid) := by
  simp [hasActive]

theorem findPart_setStatus_same (pid : Nat) (s : PStatus)
    (ps : List Participation) :
    findPart pid (setStatus pid s ps) =
      (findPart pid ps).map (fun q => { q with status := s }) := by
  induction ps with
  | nil => rfl
  | cons q rest ih =>
      by_cases h : q.id = pid
      · simp [findPart, setStatus, List.find?_cons, h]
      · simpa [findPart, setStatus, List.find?_cons, h] using ih

theorem findPart_setStatus_other (pid pid2 : Nat) (hne : pid2 ≠ pid)
    (s : PStatus) (ps : List Participation) :
    findPart pid2 (setStatus pid s ps) = findPart pid2 ps := by
  induction ps with
  | nil => rfl
  | cons q rest ih =>
      by_cases h : q.id = pid
      · have hpp : ¬pid = pid2 := fun he => hne he.symm
        simpa [findPart, setStatus, List.find?_cons, h, hpp] using ih
      · by_cases h2 : q.id = pid2
        · simp [findPart, setStatus, List.find?_cons, h, h2, hne]
        · simpa [findPart, setStatus, List.find?_cons, h, h2] using ih

theorem promoteOne_of_empty (st : CoreState)
    (h : reserves st.session.id st.parts = []) : promoteOne st = st := by
  unfold promoteOne
  rw [(earliestReserve_eq_none _ _).mpr h]

theorem promoteOne_of_some (st : CoreState) (r : Participation)
    (h : earliestReserve st.session.id st.parts = some r) :
    promoteOne st =
      { st with
        parts := setStatus r.id PStatus.CONFIRMED st.parts
        notifs := st.notifs ++
          [⟨r.userId, NotifType.PROMOTED, st.session.id⟩] } := by
  unfold promoteOne
  rw [h]

theorem requestSpot_ok (st : CoreState) (a : Actor) (st' : CoreState)
    (h : requestSpot st a = .ok st') :
    a.id ≠ st.session.organiserId ∧
    hasActive st.session.id a.id st.parts = false ∧
    st.session.isPast = false ∧
    (compute st.session st.parts).status = SStatus.OPEN ∧
    st' = { st with
      parts := st.parts ++
        [⟨st.nextId, st.session.id, a.id, PStatus.REQUESTED, st.nextId⟩]
      notifs := st.notifs ++
        [⟨st.session.organiserId, NotifType.NEW_REQUEST, st.session.id⟩]
      nextId := st.nextId + 1 } := by
  unfold requestSpot at h
  split_ifs at h with h1 h2 h3 h4
  cases h
  exact ⟨h1, by simpa using h2, by simpa using h3, h4, rfl⟩

theorem joinReserve_ok (st : CoreState) (a : Actor) (st' : CoreState)
    (h : joinReserve st a = .ok st') :
    a.id ≠ st.session.organiserId ∧
    hasActive st.session.id a.id st.parts = false ∧
    st.session.isPast = false ∧
    ((compute st.session st.parts).status = SStatus.FULL ∨
      st.session.allowReserveWhenOpen = true) ∧
    st' = { st with
      parts := st.parts ++
        [⟨st.nextId, st.session.id, a.id, PStatus.RESERVE, st.nextId⟩]
      notifs := st.notifs ++
        [⟨st.session.organiserId, NotifType.NEW_RESERVE, st.session.id⟩]
      nextId := st.nextId + 1 } := by
  unfold joinReserve at h
  split_ifs at h with h1 h2 h3 h4
  cases h
  exact ⟨h1, by simpa using h2, by simpa using h3, h4, rfl⟩

theorem approve_ok (st : CoreState) (a : Actor) (pid : Nat) (st' : CoreState)
    (h : approve st a pid = .ok st') :
    ∃ p, findPart pid st.parts = some p ∧
      canManage a st.session = true ∧
      st.session.isPast = false ∧
      (p.status = PStatus.REQUESTED ∨ p.status = PStatus.RESERVE) ∧
      (compute st.session st.parts).open_slots > 0 ∧
      st' = { st with
        parts := setStatus pid PStatus.CONFIRMED st.parts
        notifs := st.notifs ++
          (if p.status = PStatus.RESERVE then
            [⟨p.userId, NotifType.PROMOTED, st.session.id⟩]
          else []) } := by
  unfold approve at h
  cases hf : findPart pid st.parts with
  | none => rw [hf] at h; cases h
  | some p =>
      rw [hf] at h
      simp only [] at h
      by_cases h1 : (!canManage a st.session) = true
      · rw [if_pos h1] at h; cases h
      · rw [if_neg h1] at h
        by_cases h2 : st.session.isPast = true
        · rw [if_pos h2] at h; cases h
        · rw [if_neg h2] at h
          by_cases h3 :
              ¬(p.status = PStatus.REQUESTED ∨ p.status = PStatus.RESERVE)
          · rw [if_pos h3] at h; cases h
          · rw [if_neg h3] at h
            by_cases h4 : (compute st.session st.parts).open_slots > 0
            · rw [if_pos h4] at h
              cases h
              exact ⟨p, rfl, by simpa using h1, by simpa using h2,
                not_not.mp h3, h4, rfl⟩
            · rw [if_neg h4] at h; cases h

theorem decline_ok (st : CoreState) (a : Actor) (pid : Nat) (st' : CoreState)
    (h : decline st a pid = .ok st') :
    ∃ p, findPart pid st.parts = some p ∧
      canManage a st.session = true ∧
      st.session.isPast = false ∧
      p.status = PStatus.REQUESTED ∧
      st' = { st with parts := removePart pid st.parts } := by
  unfold decline at h
  cases hf : findPart pid st.parts with
  | none => rw [hf] at h; cases h
  | some p =>
      rw [hf] at h
      simp only [] at h
      by_cases h1 : (!canManage a st.session) = true
      · rw [if_pos h1] at h; cases h
      · rw [if_neg h1] at h
        by_cases h2 : st.session.isPast = true
        · rw [if_pos h2] at h; cases h
        · rw [if_neg h2] at h
          by_cases h3 : p.status = PStatus.REQUESTED
          · rw [if_pos h3] at h
            cases h
            exact ⟨p, rfl, by simpa using h1, by simpa using h2, h3, rfl⟩
          · rw [if_neg h3] at h; cases h

theorem remove_ok (st : CoreState) (a : Actor) (pid : Nat) (st' : CoreState)
    (h : remove st a pid = .ok st') :
    ∃ p, findPart pid st.parts = some p ∧
      canManage a st.session = true ∧
      st.session.isPast = false ∧
      (p.status = PStatus.CONFIRMED ∨ p.status = PStatus.RESERVE) ∧
      st' = (if p.status = PStatus.CONFIRMED then
        promoteOne { st with parts := removePart pid st.parts }
      else { st with parts := removePart pid st.parts }) := by
  unfold remove at h
  cases hf : findPart pid st.parts with
  | none => rw [hf] at h; cases h
  | some p =>
      rw [hf] at h
      simp only [] at h
      by_cases h1 : (!canManage a st.session) = true
      · rw [if_pos h1] at h; cases h
      · rw [if_neg h1] at h
        by_cases h2 : st.session.isPast = true
        · rw [if_pos h2] at h; cases h
        · rw [if_neg h2] at h
          by_cases h3 :
              p.status = PStatus.CONFIRMED ∨ p.status = PStatus.RESERVE
          · rw [if_pos h3] at h
            cases h
            exact ⟨p, rfl, by simpa using h1, by simpa using h2, h3, rfl⟩
          · rw [if_neg h3] at h; cases h

theorem withdraw_ok (st : CoreState) (a : Actor) (pid : Nat) (st' : CoreState)
    (h : withdraw st a pid = .ok st') :
    ∃ p, findPart pid st.parts = some p ∧
      a.id = p.userId ∧
      st.session.isPast = false ∧
      (p.status = PStatus.CONFIRMED ∨ p.status = PStatus.RESERVE) ∧
      st' = (let st2 :=
        if p.status = PStatus.CONFIRMED then
          promoteOne { st with parts := removePart pid st.parts }
        else { st with parts := removePart pid st.parts }
      { st2 with
        notifs := st2.notifs ++
          [⟨st.session.organiserId, NotifType.PLAYER_WITHDREW,
            st.session.id⟩] }) := by
  unfold withdraw at h
  cases hf : findPart pid st.parts with
  | none => rw [hf] at h; cases h
  | some p =>
      rw [hf] at h
      simp only [] at h
      by_cases h1 : a.id ≠ p.userId
      · rw [if_pos h1] at h; cases h
      · rw [if_neg h1] at h
        by_cases h2 : st.session.isPast = true
        · rw [if_pos h2] at h; cases h
        · rw [if_neg h2] at h
          by_cases h3 :
              p.status = PStatus.CONFIRMED ∨ p.status = PStatus.RESERVE
          · rw [if_pos h3] at h
            cases h
            exact ⟨p, rfl, not_not.mp h1, by simpa using h2, h3, rfl⟩
          · rw [if_neg h3] at h; cases h

/-! ## The state invariant and its preservation -/

/-- Well-formedness of a core state: every participation belongs to the
state's session, ids are fresh and distinct, at most one participation per
user (spec §3 invariant), and the confirmed count never exceeds the slot
count. -/
structure WF (st : CoreState) : Prop where
  sess : ∀ p ∈ st.parts, p.sessionId = st.session.id
  fresh : ∀ p ∈ st.parts, p.id < st.nextId
  nodupIds : (st.parts.map Participation.id).Nodup
  nodupUsers : (st.parts.map Participation.userId).Nodup
  ccBound : countStatus st.session.id PStatus.CONFIRMED st.parts ≤
    st.session.slotsRequired

theorem open_slots_pos (s : Session) (ps : List Participation)
    (h : (compute s ps).open_slots > 0) :
    countStatus s.id PStatus.CONFIRMED ps < s.slotsRequired := by
  simp only [compute, gt_iff_lt] at h
  rcases lt_max_iff.mp h with h' | h'
  · omega
  · exact absurd h' (lt_irrefl 0)

theorem WF_set_notifs (st : CoreState) (n : List Notification) (h : WF st) :
    WF { st with notifs := n } :=
  ⟨h.sess, h.fresh, h.nodupIds, h.nodupUsers, h.ccBound⟩

theorem WF_promoteOne (st : CoreState)
    (hsess : ∀ p ∈ st.parts, p.sessionId = st.session.id)
    (hfresh : ∀ p ∈ st.parts, p.id < st.nextId)
    (hids : (st.parts.map Participation.id).Nodup)
    (husers : (st.parts.map Participation.userId).Nodup)
    (hcc : countStatus st.session.id PStatus.CONFIRMED st.parts <
      st.session.slotsRequired) :
    WF (promoteOne st) := by
  cases hE : earliestReserve st.session.id st.parts with
  | none =>
      rw [promoteOne_of_empty st ((earliestReserve_eq_none _ _).mp hE)]
      exact ⟨hsess, hfresh, hids, husers, le_of_lt hcc⟩
  | some r =>
      rw [promoteOne_of_some st r hE]
      obtain ⟨hrin, hrsid, hrstat⟩ :=
        (mem_reserves _ _ _).mp (earliestReserve_mem _ _ _ hE)
      constructor
      · intro q hq
        obtain ⟨w, hw, _, _, hqs, _⟩ := mem_setStatus _ _ _ q hq
        rw [hqs]; exact hsess w hw
      · intro q hq
        obtain ⟨w, hw, hqi, _, _, _⟩ := mem_setStatus _ _ _ q hq
        rw [hqi]; exact hfresh w hw
      · rw [setStatus_map_id]; exact hids
      · rw [setStatus_map_userId]; exact husers
      · have hkey := countStatus_setStatus st.session.id PStatus.CONFIRMED
          PStatus.CONFIRMED st.parts hids r hrin
        rw [if_neg (fun hand => by simp [hrstat] at hand),
          if_pos ⟨hrsid, rfl⟩] at hkey
        dsimp only
        omega

theorem WF_requestSpot (st : CoreState) (a : Actor) (st' : CoreState)
    (hwf : WF st) (h : requestSpot st a = .ok st') : WF st' := by
  obtain ⟨-, hact, -, -, rfl⟩ := requestSpot_ok st a st' h
  constructor
  · intro p hp
    rcases List.mem_append.mp hp with hp | hp
    · exact hwf.sess p hp
    · simp only [List.mem_singleton] at hp; subst hp; rfl
  · intro p hp
    rcases List.mem_append.mp hp with hp | hp
    · exact Nat.lt_succ_of_lt (hwf.fresh p hp)
    · simp only [List.mem_singleton] at hp; subst hp; exact Nat.lt_succ_self _
  · rw [List.map_append]
    refine List.Nodup.append hwf.nodupIds (by simp) ?_
    intro x hx hy
    simp only [List.map_cons, List.map_nil, List.mem_singleton] at hy
    subst hy
    obtain ⟨p, hp, hpid⟩ := List.mem_map.mp hx
    exact absurd (hpid ▸ hwf.fresh p hp) (lt_irrefl _)
  · rw [List.map_append]
    refine List.Nodup.append hwf.nodupUsers (by simp) ?_
    intro x hx hy
    simp only [List.map_cons, List.map_nil, List.mem_singleton] at hy
    subst hy
    obtain ⟨p, hp, hpid⟩ := List.mem_map.mp hx
    exact (hasActive_eq_false _ _ _).mp hact p hp ⟨hwf.sess p hp, hpid⟩
  · rw [countStatus_append]
    have hone : countStatus st.session.id PStatus.CONFIRMED
        [⟨st.nextId, st.session.id, a.id, PStatus.REQUESTED, st.nextId⟩]
          = 0 := by
      simp [countStatus]
    rw [hone]
    simpa using hwf.ccBound

theorem WF_joinReserve (st : CoreState) (a : Actor) (st' : CoreState)
    (hwf : WF st) (h : joinReserve st a = .ok st') : WF st' := by
  obtain ⟨-, hact, -, -, rfl⟩ := joinReserve_ok st a st' h
  constructor
  · intro p hp
    rcases List.mem_append.mp hp with hp | hp
    · exact hwf.sess p hp
    · simp only [List.mem_singleton] at hp; subst hp; rfl
  · intro p hp
    rcases List.mem_append.mp hp with hp | hp
    · exact Nat.lt_succ_of_lt (hwf.fresh p hp)
    · simp only [List.mem_singleton] at hp; subst hp; exact Nat.lt_succ_self _
  · rw [List.map_append]
    refine List.Nodup.append hwf.nodupIds (by simp) ?_
    intro x hx hy
    simp only [List.map_cons, List.map_nil, List.mem_singleton] at hy
    subst hy
    obtain ⟨p, hp, hpid⟩ := List.mem_map.mp hx
    exact absurd (hpid ▸ hwf.fresh p hp) (lt_irrefl _)
  · rw [List.map_append]
    refine List.Nodup.append hwf.nodupUsers (by simp) ?_
    intro x hx hy
    simp only [List.map_cons, List.map_nil, List.mem_singleton] at hy
    subst hy
    obtain ⟨p, hp, hpid⟩ := List.mem_map.mp hx
    exact (hasActive_eq_false _ _ _).mp hact p hp ⟨hwf.sess p hp, hpid⟩
  · rw [countStatus_append]
    have hone : countStatus st.session.id PStatus.CONFIRMED
        [⟨st.nextId, st.session.id, a.id, PStatus.RESERVE, st.nextId⟩]
          = 0 := by
      simp [countStatus]
    rw [hone]
    simpa using hwf.ccBound

theorem WF_approve (st : CoreState) (a : Actor) (pid : Nat) (st' : CoreState)
    (hwf : WF st) (h : approve st a pid = .ok st') : WF st' := by
  obtain ⟨p, hf, -, -, hstat, hos, rfl⟩ := approve_ok st a pid st' h
  obtain ⟨hpin, hpid⟩ := findPart_some pid st.parts p hf
  subst hpid
  constructor
  · intro q hq
    obtain ⟨w, hw, _, _, hqs, _⟩ := mem_setStatus _ _ _ q hq
    rw [hqs]; exact hwf.sess w hw
  · intro q hq
    obtain ⟨w, hw, hqi, _, _, _⟩ := mem_setStatus _ _ _ q hq
    rw [hqi]; exact hwf.fresh w hw
  · rw [setStatus_map_id]; exact hwf.nodupIds
  · rw [setStatus_map_userId]; exact hwf.nodupUsers
  · have hlt := open_slots_pos st.session st.parts hos
    have hkey := countStatus_setStatus st.session.id PStatus.CONFIRMED
      PStatus.CONFIRMED st.parts hwf.nodupIds p hpin
    have hne : ¬(p.sessionId = st.session.id ∧
        p.status = PStatus.CONFIRMED) := by
      rcases hstat with h' | h' <;> simp [h']
    rw [if_neg hne, if_pos ⟨hwf.sess p hpin, rfl⟩] at hkey
    dsimp only
    omega

theorem WF_decline (st : CoreState) (a : Actor) (pid : Nat) (st' : CoreState)
    (hwf : WF st) (h : decline st a pid = .ok st') : WF st' := by
  obtain ⟨p, hf, -, -, -, rfl⟩ := decline_ok st a pid st' h
  obtain ⟨hpin, hpid⟩ := findPart_some pid st.parts p hf
  subst hpid
  constructor
  · intro q hq; exact hwf.sess q (mem_removePart _ _ _ hq).1
  · intro q hq; exact hwf.fresh q (mem_removePart _ _ _ hq).1
  · exact List.Nodup.sublist (removePart_map_id_sublist _ _) hwf.nodupIds
  · exact List.Nodup.sublist (removePart_map_userId_sublist _ _)
      hwf.nodupUsers
  · have hkey := countStatus_removePart st.session.id PStatus.CONFIRMED
      st.parts hwf.nodupIds p hpin
    have := hwf.ccBound
    rcases Classical.em (p.sessionId = st.session.id ∧
        p.status = PStatus.CONFIRMED) with hc | hc
    · rw [if_pos hc] at hkey; dsimp only; omega
    · rw [if_neg hc] at hkey; dsimp only; omega

theorem WF_remove (st : CoreState) (a : Actor) (pid : Nat) (st' : CoreState)
    (hwf : WF st) (h : remove st a pid = .ok st') : WF st' := by
  obtain ⟨p, hf, -, -, hstat, rfl⟩ := remove_ok st a pid st' h
  obtain ⟨hpin, hpid⟩ := findPart_some pid st.parts p hf
  subst hpid
  have h1sess : ∀ q ∈ removePart p.id st.parts,
      q.sessionId = st.session.id :=
    fun q hq => hwf.sess q (mem_removePart _ _ _ hq).1
  have h1fresh : ∀ q ∈ removePart p.id st.parts, q.id < st.nextId :=
    fun q hq => hwf.fresh q (mem_removePart _ _ _ hq).1
  have h1ids := List.Nodup.sublist (removePart_map_id_sublist p.id st.parts)
    hwf.nodupIds
  have h1users := List.Nodup.sublist
    (removePart_map_userId_sublist p.id st.parts) hwf.nodupUsers
  have hkey := countStatus_removePart st.session.id PStatus.CONFIRMED
    st.parts hwf.nodupIds p hpin
  by_cases hc : p.status = PStatus.CONFIRMED
  · rw [if_pos hc]
    rw [if_pos ⟨hwf.sess p hpin, hc⟩] at hkey
    have := hwf.ccBound
    exact WF_promoteOne _ h1sess h1fresh h1ids h1users
      (by dsimp only; omega)
  · rw [if_neg hc]
    rw [if_neg (fun hand => hc hand.2)] at hkey
    have := hwf.ccBound
    exact ⟨h1sess, h1fresh, h1ids, h1users, by dsimp only; omega⟩

theorem WF_withdraw (st : CoreState) (a : Actor) (pid : Nat)
    (st' : CoreState) (hwf : WF st) (h : withdraw st a pid = .ok st') :
    WF st' := by
  obtain ⟨p, hf, -, -, hstat, rfl⟩ := withdraw_ok st a pid st' h
  obtain ⟨hpin, hpid⟩ := findPart_some pid st.parts p hf
  subst hpid
  have h1sess : ∀ q ∈ removePart p.id st.parts,
      q.sessionId = st.session.id :=
    fun q hq => hwf.sess q (mem_removePart _ _ _ hq).1
  have h1fresh : ∀ q ∈ removePart p.id st.parts, q.id < st.nextId :=
    fun q hq => hwf.fresh q (mem_removePart _ _ _ hq).1
  have h1ids := List.Nodup.sublist (removePart_map_id_sublist p.id st.parts)
    hwf.nodupIds
  have h1users := List.Nodup.sublist
    (removePart_map_userId_sublist p.id st.parts) hwf.nodupUsers
  have hkey := countStatus_removePart st.session.id PStatus.CONFIRMED
    st.parts hwf.nodupIds p hpin
  by_cases hc : p.status = PStatus.CONFIRMED
  · simp only [if_pos hc]
    rw [if_pos ⟨hwf.sess p hpin, hc⟩] at hkey
    have := hwf.ccBound
    have hwfp := WF_promoteOne
      { st with parts := removePart p.id st.parts }
      h1sess h1fresh h1ids h1users (by dsimp only; omega)
    exact ⟨hwfp.sess, hwfp.fresh, hwfp.nodupIds, hwfp.nodupUsers,
      hwfp.ccBound⟩
  · simp only [if_neg hc]
    rw [if_neg (fun hand => hc hand.2)] at hkey
    have := hwf.ccBound
    exact ⟨h1sess, h1fresh, h1ids, h1users, by dsimp only; omega⟩

/-- Every reachable state is well-formed: all six mutating operations
preserve the invariant. -/
theorem Reachable_WF (st : CoreState) (h : Reachable st) : WF st := by
  induction h with
  | init s =>
      exact ⟨by simp [initState], by simp [initState], by simp [initState],
        by simp [initState], by simp [initState, countStatus]⟩
  | request st st' a _ hok ih => exact WF_requestSpot st a st' ih hok
  | reserve st st' a _ hok ih => exact WF_joinReserve st a st' ih hok
  | approveStep st st' a pid _ hok ih => exact WF_approve st a pid st' ih hok
  | declineStep st st' a pid _ hok ih => exact WF_decline st a pid st' ih hok
  | removeStep st st' a pid _ hok ih => exact WF_remove st a pid st' ih hok
  | withdrawStep st st' a pid _ hok ih =>
      exact WF_withdraw st a pid st' ih hok


/-! ## Projections of the capacity snapshot -/

theorem compute_confirmed (s : Session) (ps : List Participation) :
    (compute s ps).confirmed_count =
      countStatus s.id PStatus.CONFIRMED ps := rfl

theorem compute_reserve (s : Session) (ps : List Participation) :
    (compute s ps).reserve_count = countStatus s.id PStatus.RESERVE ps := rfl

theorem compute_open_slots (s : Session) (ps : List Participation) :
    (compute s ps).open_slots =
      max ((s.slotsRequired : Int) -
        (countStatus s.id PStatus.CONFIRMED ps : Int)) 0 := rfl

/-! ## Theorems -/

/-- C1: in every reachable state the Capacity Calculator yields
`open_slots = max(slots_required - confirmed_count, 0)`; `open_slots` is
never negative, never exceeds `slots_required`, and
`confirmed_count + open_slots = slots_required` — preserved by every
mutating operation. -/
theorem capacity_invariant (st : CoreState) (h : Reachable st) :
    (compute st.session st.parts).open_slots =
      max ((st.session.slotsRequired : Int) -
        ((compute st.session st.parts).confirmed_count : Int)) 0 ∧
    0 ≤ (compute st.session st.parts).open_slots ∧
    (compute st.session st.parts).open_slots ≤
      (st.session.slotsRequired : Int) ∧
    ((compute st.session st.parts).confirmed_count : Int) +
      (compute st.session st.parts).open_slots =
      (st.session.slotsRequired : Int) := by
  have hcc := (Reachable_WF st h).ccBound
  rw [compute_open_slots, compute_confirmed]
  refine ⟨rfl, le_max_right _ _, max_le (by omega) (by omega), ?_⟩
  rw [max_eq_left (by omega : (0 : Int) ≤
    (st.session.slotsRequired : Int) -
      (countStatus st.session.id PStatus.CONFIRMED st.parts : Int))]
  omega

/-- Witness for `capacity_invariant` at the freshly created session with
three slots. -/
theorem capacity_invariant_witness :
    0 ≤ (compute (initState ⟨0, 1, 3, false, false⟩).session
      (initState ⟨0, 1, 3, false, false⟩).parts).open_slots ∧
    ((compute (initState ⟨0, 1, 3, false, false⟩).session
        (initState ⟨0, 1, 3, false, false⟩).parts).confirmed_count : Int) +
      (compute (initState ⟨0, 1, 3, false, false⟩).session
        (initState ⟨0, 1, 3, false, false⟩).parts).open_slots = 3 :=
  ⟨(capacity_invariant (initState ⟨0, 1, 3, false, false⟩)
      (Reachable.init ⟨0, 1, 3, false, false⟩)).2.1,
   (capacity_invariant (initState ⟨0, 1, 3, false, false⟩)
      (Reachable.init ⟨0, 1, 3, false, false⟩)).2.2.2⟩

/-- C6: in every reachable state there is at most one active participation
per (session id, user id) pair, and request-spot / join-reserve are
rejected with an error whenever the actor already holds an active
participation for the session. -/
theorem unique_active_participation (st : CoreState) (h : Reachable st) :
    (∀ p ∈ st.parts, ∀ q ∈ st.parts,
      p.sessionId = q.sessionId → p.userId = q.userId → p = q) ∧
    (∀ a : Actor, hasActive st.session.id a.id st.parts = true →
      (∃ e, requestSpot st a = .error e) ∧
      (∃ e, joinReserve st a = .error e)) := by
  have hwf := Reachable_WF st h
  constructor
  · intro p hp q hq _ huid
    exact List.inj_on_of_nodup_map hwf.nodupUsers hp hq huid
  · intro a ha
    constructor
    · by_cases horg : a.id = st.session.organiserId
      · exact ⟨CoreError.NotAuthorized, by simp [requestSpot, horg]⟩
      · exact ⟨CoreError.InvalidState, by simp [requestSpot, horg, ha]⟩
    · by_cases horg : a.id = st.session.organiserId
      · exact ⟨CoreError.NotAuthorized, by simp [joinReserve, horg]⟩
      · exact ⟨CoreError.InvalidState, by simp [joinReserve, horg, ha]⟩

/-- Witness for `unique_active_participation`: after user 2's request is
accepted, a second request or reserve join by user 2 is rejected. -/
theorem unique_active_participation_witness :
    (∃ e, requestSpot
      ⟨⟨0, 1, 2, false, false⟩, [⟨0, 0, 2, PStatus.REQUESTED, 0⟩],
        [⟨1, NotifType.NEW_REQUEST, 0⟩], 1⟩ ⟨2, false⟩ = .error e) ∧
    (∃ e, joinReserve
      ⟨⟨0, 1, 2, false, false⟩, [⟨0, 0, 2, PStatus.REQUESTED, 0⟩],
        [⟨1, NotifType.NEW_REQUEST, 0⟩], 1⟩ ⟨2, false⟩ = .error e) :=
  (unique_active_participation
    ⟨⟨0, 1, 2, false, false⟩, [⟨0, 0, 2, PStatus.REQUESTED, 0⟩],
      [⟨1, NotifType.NEW_REQUEST, 0⟩], 1⟩
    (Reachable.request (initState ⟨0, 1, 2, false, false⟩) _ ⟨2, false⟩
      (Reachable.init ⟨0, 1, 2, false, false⟩) rfl)).2 ⟨2, false⟩ rfl

/-- C3: with distinct participation ids, one promotion attempt (a) does
nothing and raises no error when the reserve list is empty, (b) otherwise
promotes exactly the reserve with the earliest creation timestamp (ties by
id), emitting PROMOTED to them and consuming exactly one reserve, and
(c) successive promotions exhaust the reserve in FIFO creation order. -/
theorem promotion_fifo (st : CoreState)
    (hnd : (st.parts.map Participation.id).Nodup) :
    (reserves st.session.id st.parts = [] → promoteOne st = st) ∧
    (∀ r, earliestReserve st.session.id st.parts = some r →
      r ∈ reserves st.session.id st.parts ∧
      (∀ q ∈ reserves st.session.id st.parts, q.id ≠ r.id →
        keyLt r q = true) ∧
      (promoteOne st).parts = setStatus r.id PStatus.CONFIRMED st.parts ∧
      (promoteOne st).notifs = st.notifs ++
        [⟨r.userId, NotifType.PROMOTED, st.session.id⟩] ∧
      countStatus st.session.id PStatus.RESERVE st.parts =
        countStatus st.session.id PStatus.RESERVE (promoteOne st).parts
          + 1) ∧
    (∀ r r', earliestReserve st.session.id st.parts = some r →
      earliestReserve (promoteOne st).session.id (promoteOne st).parts =
        some r' →
      keyLt r r' = true) := by
  refine ⟨promoteOne_of_empty st, ?_, ?_⟩
  · intro r hE
    have hmem := earliestReserve_mem _ _ _ hE
    obtain ⟨hrin, hrsid, hrstat⟩ := (mem_reserves _ _ _).mp hmem
    refine ⟨hmem, earliestReserve_strict_min _ _ _ hE, ?_, ?_, ?_⟩
    · rw [promoteOne_of_some st r hE]
    · rw [promoteOne_of_some st r hE]
    · rw [promoteOne_of_some st r hE]
      have hkey := countStatus_setStatus st.session.id PStatus.CONFIRMED
        PStatus.RESERVE st.parts hnd r hrin
      rw [if_pos ⟨hrsid, hrstat⟩,
        if_neg (fun hand => by cases hand.2)] at hkey
      dsimp only
      omega
  · intro r r' hE hE'
    rw [promoteOne_of_some st r hE] at hE'
    dsimp only at hE'
    have hmem' := earliestReserve_mem _ _ _ hE'
    rw [reserves_setStatus_confirmed] at hmem'
    have := List.mem_filter.mp hmem'
    simp only [decide_eq_true_eq] at this
    exact earliestReserve_strict_min _ _ _ hE r' this.1 this.2

/-- Witness for `promotion_fifo`: with two reserves created at times 0 and
1, promotion confirms the earlier one and notifies user 2. -/
theorem promotion_fifo_witness :
    (promoteOne ⟨⟨0, 1, 1, false, false⟩,
        [⟨0, 0, 2, PStatus.RESERVE, 0⟩, ⟨1, 0, 3, PStatus.RESERVE, 1⟩],
        [], 2⟩).parts =
      [⟨0, 0, 2, PStatus.CONFIRMED, 0⟩, ⟨1, 0, 3, PStatus.RESERVE, 1⟩] ∧
    (promoteOne ⟨⟨0, 1, 1, false, false⟩,
        [⟨0, 0, 2, PStatus.RESERVE, 0⟩, ⟨1, 0, 3, PStatus.RESERVE, 1⟩],
        [], 2⟩).notifs = [⟨2, NotifType.PROMOTED, 0⟩] := by
  obtain ⟨-, hB, -⟩ := promotion_fifo
    ⟨⟨0, 1, 1, false, false⟩,
      [⟨0, 0, 2, PStatus.RESERVE, 0⟩, ⟨1, 0, 3, PStatus.RESERVE, 1⟩],
      [], 2⟩ (by decide)
  obtain ⟨-, -, hparts, hnotifs, -⟩ := hB ⟨0, 0, 2, PStatus.RESERVE, 0⟩ rfl
  exact ⟨by rw [hparts]; rfl, by rw [hnotifs]; rfl⟩

/-- C4: withdrawing a CONFIRMED participant from a session whose reserve
list is non-empty succeeds, leaves `confirmed_count` unchanged, decrements
`reserve_count` by exactly one, and emits a PROMOTED notification to the
promoted user and a PLAYER_WITHDREW notification to the organiser. -/
theorem withdraw_with_reserve (st : CoreState) (a : Actor) (pid : Nat)
    (p : Participation) (hwf : WF st)
    (hfind : findPart pid st.parts = some p)
    (hstat : p.status = PStatus.CONFIRMED)
    (hact : a.id = p.userId)
    (hpast : st.session.isPast = false)
    (hres : reserves st.session.id st.parts ≠ []) :
    ∃ st' r, withdraw st a pid = .ok st' ∧
      earliestReserve st.session.id (removePart pid st.parts) = some r ∧
      (compute st'.session st'.parts).confirmed_count =
        (compute st.session st.parts).confirmed_count ∧
      (compute st.session st.parts).reserve_count =
        (compute st'.session st'.parts).reserve_count + 1 ∧
      st'.notifs = st.notifs ++
        [⟨r.userId, NotifType.PROMOTED, st.session.id⟩,
         ⟨st.session.organiserId, NotifType.PLAYER_WITHDREW,
           st.session.id⟩] := by
  obtain ⟨hpin, hpid⟩ := findPart_some pid st.parts p hfind
  subst hpid
  have hres1 : reserves st.session.id (removePart p.id st.parts) =
      reserves st.session.id st.parts := by
    rw [reserves_removePart]
    apply List.filter_eq_self.mpr
    intro q hq
    obtain ⟨hqin, -, hqstat⟩ := (mem_reserves _ _ _).mp hq
    simp only [decide_eq_true_eq]
    intro hqid
    have hqp : q = p :=
      List.inj_on_of_nodup_map hwf.nodupIds hqin hpin (by rw [hqid])
    rw [hqp, hstat] at hqstat
    cases hqstat
  obtain ⟨r, hr⟩ : ∃ r, earliestReserve st.session.id
      (removePart p.id st.parts) = some r := by
    cases hE : earliestReserve st.session.id (removePart p.id st.parts) with
    | none =>
        have h0 := (earliestReserve_eq_none _ _).mp hE
        rw [hres1] at h0
        exact absurd h0 hres
    | some r => exact ⟨r, rfl⟩
  have hw : withdraw st a p.id = .ok
      { promoteOne { st with parts := removePart p.id st.parts } with
        notifs := (promoteOne
          { st with parts := removePart p.id st.parts }).notifs ++
          [⟨st.session.organiserId, NotifType.PLAYER_WITHDREW,
            st.session.id⟩] } := by
    unfold withdraw
    rw [hfind]
    simp only []
    rw [if_neg (by simp [hact]), if_neg (by simp [hpast]),
      if_pos (Or.inl hstat), if_pos hstat]
  refine ⟨_, r, hw, hr, ?_, ?_, ?_⟩
  all_goals
    obtain ⟨hrin1, hrsid, hrstat⟩ :=
      (mem_reserves _ _ _).mp (earliestReserve_mem _ _ _ hr)
  all_goals
    have h1ids := List.Nodup.sublist
      (removePart_map_id_sublist p.id st.parts) hwf.nodupIds
  all_goals
    rw [promoteOne_of_some { st with parts := removePart p.id st.parts }
      r hr]
  · have hrem := countStatus_removePart st.session.id PStatus.CONFIRMED
      st.parts hwf.nodupIds p hpin
    rw [if_pos ⟨hwf.sess p hpin, hstat⟩] at hrem
    have hset := countStatus_setStatus st.session.id PStatus.CONFIRMED
      PStatus.CONFIRMED (removePart p.id st.parts) h1ids r hrin1
    rw [if_neg (fun hand => by simp [hrstat] at hand),
      if_pos ⟨hrsid, rfl⟩] at hset
    rw [compute_confirmed, compute_confirmed]
    dsimp only
    omega
  · have hrem := countStatus_removePart st.session.id PStatus.RESERVE
      st.parts hwf.nodupIds p hpin
    rw [if_neg (fun hand => by simp [hstat] at hand)] at hrem
    have hset := countStatus_setStatus st.session.id PStatus.CONFIRMED
      PStatus.RESERVE (removePart p.id st.parts) h1ids r hrin1
    rw [if_pos ⟨hrsid, hrstat⟩,
      if_neg (fun hand => by cases hand.2)] at hset
    rw [compute_reserve, compute_reserve]
    dsimp only
    omega
  · dsimp only
    rw [List.append_assoc]
    rfl

/-- Witness for `withdraw_with_reserve`: user 2 is CONFIRMED in a one-slot
session, user 3 waits on reserve; user 2 withdraws. -/
theorem withdraw_with_reserve_witness :
    ∃ st', withdraw ⟨⟨0, 1, 1, false, false⟩,
        [⟨0, 0, 2, PStatus.CONFIRMED, 0⟩, ⟨1, 0, 3, PStatus.RESERVE, 1⟩],
        [], 2⟩ ⟨2, false⟩ 0 = .ok st' ∧
      (compute st'.session st'.parts).confirmed_count = 1 ∧
      (compute st'.session st'.parts).reserve_count = 0 := by
  obtain ⟨st', r, hok, -, hcc, hrc, -⟩ := withdraw_with_reserve
    ⟨⟨0, 1, 1, false, false⟩,
      [⟨0, 0, 2, PStatus.CONFIRMED, 0⟩, ⟨1, 0, 3, PStatus.RESERVE, 1⟩],
      [], 2⟩ ⟨2, false⟩ 0 ⟨0, 0, 2, PStatus.CONFIRMED, 0⟩
    ⟨by decide, by decide, by decide, by decide, by decide⟩
    rfl rfl rfl rfl (by decide)
  refine ⟨st', hok, ?_, ?_⟩
  · rw [hcc]; decide
  · have : (compute (⟨⟨0, 1, 1, false, false⟩,
        [⟨0, 0, 2, PStatus.CONFIRMED, 0⟩, ⟨1, 0, 3, PStatus.RESERVE, 1⟩],
        [], 2⟩ : CoreState).session
      (⟨⟨0, 1, 1, false, false⟩,
        [⟨0, 0, 2, PStatus.CONFIRMED, 0⟩, ⟨1, 0, 3, PStatus.RESERVE, 1⟩],
        [], 2⟩ : CoreState).parts).reserve_count = 1 := by decide
    omega

/-- C5: for an authorised organiser acting on a live session, approval
succeeds exactly when the target is REQUESTED or RESERVE and
`open_slots > 0`, in which case the target becomes CONFIRMED; with zero
open slots the approval is rejected with `InvalidState` and no state
change; and of two approvals competing for the last slot the first yields
CONFIRMED while the second receives `InvalidState`. -/
theorem approve_guard (st : CoreState) (a : Actor) (pid : Nat)
    (p : Participation) (hwf : WF st)
    (hfind : findPart pid st.parts = some p)
    (hmg : canManage a st.session = true)
    (hpast : st.session.isPast = false) :
    ((∃ st', approve st a pid = .ok st') ↔
      ((p.status = PStatus.REQUESTED ∨ p.status = PStatus.RESERVE) ∧
        (compute st.session st.parts).open_slots > 0)) ∧
    (∀ st', approve st a pid = .ok st' →
      findPart pid st'.parts =
        some { p with status := PStatus.CONFIRMED }) ∧
    ((compute st.session st.parts).open_slots = 0 →
      (p.status = PStatus.REQUESTED ∨ p.status = PStatus.RESERVE) →
      approve st a pid = .error CoreError.InvalidState) ∧
    (∀ pid2 p2 st', pid2 ≠ pid →
      findPart pid2 st.parts = some p2 →
      (p2.status = PStatus.REQUESTED ∨ p2.status = PStatus.RESERVE) →
      approve st a pid = .ok st' →
      (compute st.session st.parts).open_slots = 1 →
      approve st' a pid2 = .error CoreError.InvalidState) := by
  refine ⟨⟨?_, ?_⟩, ?_, ?_, ?_⟩
  · rintro ⟨st', hok⟩
    obtain ⟨p', hf', -, -, hstat', hos, -⟩ := approve_ok st a pid st' hok
    rw [hfind] at hf'
    cases hf'
    exact ⟨hstat', hos⟩
  · rintro ⟨hstat, hos⟩
    refine ⟨{ st with
      parts := setStatus pid PStatus.CONFIRMED st.parts
      notifs := st.notifs ++
        (if p.status = PStatus.RESERVE then
          [⟨p.userId, NotifType.PROMOTED, st.session.id⟩]
        else []) }, ?_⟩
    unfold approve
    rw [hfind]
    simp only []
    rw [if_neg (by simp [hmg]), if_neg (by simp [hpast]),
      if_neg (not_not_intro hstat), if_pos hos]
  · intro st' hok
    obtain ⟨p', hf', -, -, -, -, rfl⟩ := approve_ok st a pid st' hok
    rw [hfind] at hf'
    cases hf'
    dsimp only
    rw [findPart_setStatus_same, hfind]
    rfl
  · intro hos hstat
    unfold approve
    rw [hfind]
    simp only []
    rw [if_neg (by simp [hmg]), if_neg (by simp [hpast]),
      if_neg (not_not_intro hstat), if_neg (by rw [hos]; exact lt_irrefl 0)]
  · intro pid2 p2 st' hne hf2 hs2 hok hos1
    obtain ⟨p', hf', -, -, hstat', -, rfl⟩ := approve_ok st a pid st' hok
    rw [hfind] at hf'
    cases hf'
    obtain ⟨hpin, hpid⟩ := findPart_some pid st.parts p hfind
    have hfind2' : findPart pid2
        (setStatus pid PStatus.CONFIRMED st.parts) = some p2 := by
      rw [findPart_setStatus_other pid pid2 hne]
      exact hf2
    have hkey := countStatus_setStatus st.session.id PStatus.CONFIRMED
      PStatus.CONFIRMED st.parts hwf.nodupIds p hpin
    rw [if_neg (fun hand => by rcases hstat' with h' | h' <;>
        simp [h'] at hand), if_pos ⟨hwf.sess p hpin, rfl⟩] at hkey
    have hcc1 : (st.session.slotsRequired : Int) =
        (countStatus st.session.id PStatus.CONFIRMED st.parts : Int) + 1 := by
      rw [compute_open_slots] at hos1
      rcases max_cases ((st.session.slotsRequired : Int) -
        (countStatus st.session.id PStatus.CONFIRMED st.parts : Int))
        (0 : Int) with ⟨he, hle⟩ | ⟨he, hle⟩ <;> rw [he] at hos1 <;> omega
    unfold approve
    simp only []
    rw [hfind2']
    simp only []
    rw [if_neg (by simp [hmg]), if_neg (by simp [hpast]),
      if_neg (not_not_intro hs2), if_neg ?_]
    rw [compute_open_slots]
    rw [hpid] at hkey
    have hmax : max ((st.session.slotsRequired : Int) -
        (countStatus st.session.id PStatus.CONFIRMED
          (setStatus pid PStatus.CONFIRMED st.parts) : Int)) 0 = 0 := by
      rw [max_eq_right (by omega)]
    rw [hmax]
    exact lt_irrefl 0

/-- Witness for `approve_guard`: one open slot, two REQUESTED players;
approving player id 0 succeeds, then approving player id 1 is rejected
with `InvalidState`. -/
theorem approve_guard_witness :
    ∃ st', approve ⟨⟨0, 1, 1, false, false⟩,
        [⟨0, 0, 2, PStatus.REQUESTED, 0⟩, ⟨1, 0, 3, PStatus.REQUESTED, 1⟩],
        [], 2⟩ ⟨1, false⟩ 0 = .ok st' ∧
      approve st' ⟨1, false⟩ 1 = .error CoreError.InvalidState := by
  obtain ⟨⟨-, hfwd⟩, -, -, hrace⟩ := approve_guard
    ⟨⟨0, 1, 1, false, false⟩,
      [⟨0, 0, 2, PStatus.REQUESTED, 0⟩, ⟨1, 0, 3, PStatus.REQUESTED, 1⟩],
      [], 2⟩ ⟨1, false⟩ 0 ⟨0, 0, 2, PStatus.REQUESTED, 0⟩
    ⟨by decide, by decide, by decide, by decide, by decide⟩
    rfl rfl rfl
  obtain ⟨st', hok⟩ := hfwd ⟨Or.inl rfl, by decide⟩
  exact ⟨st', hok,
    hrace 1 ⟨1, 0, 3, PStatus.REQUESTED, 1⟩ st' (by decide) rfl
      (Or.inl rfl) hok (by decide)⟩

/-- C8: for a non-organiser with no active participation in a live
session, request-spot succeeds exactly when the status is OPEN and creates
a REQUESTED participation, while join-reserve succeeds exactly when the
status is FULL or the organiser allows reserve joins while open, creating
a RESERVE participation. -/
theorem request_reserve_paths (st : CoreState) (a : Actor)
    (horg : a.id ≠ st.session.organiserId)
    (hact : hasActive st.session.id a.id st.parts = false)
    (hpast : st.session.isPast = false) :
    ((∃ st', requestSpot st a = .ok st') ↔
      (compute st.session st.parts).status = SStatus.OPEN) ∧
    (∀ st', requestSpot st a = .ok st' →
      st'.parts = st.parts ++
        [⟨st.nextId, st.session.id, a.id, PStatus.REQUESTED, st.nextId⟩]) ∧
    ((∃ st', joinReserve st a = .ok st') ↔
      ((compute st.session st.parts).status = SStatus.FULL ∨
        st.session.allowReserveWhenOpen = true)) ∧
    (∀ st', joinReserve st a = .ok st' →
      st'.parts = st.parts ++
        [⟨st.nextId, st.session.id, a.id, PStatus.RESERVE, st.nextId⟩]) := by
  refine ⟨⟨?_, ?_⟩, ?_, ⟨?_, ?_⟩, ?_⟩
  · rintro ⟨st', hok⟩
    exact (requestSpot_ok st a st' hok).2.2.2.1
  · intro hopen
    refine ⟨{ st with
      parts := st.parts ++
        [⟨st.nextId, st.session.id, a.id, PStatus.REQUESTED, st.nextId⟩]
      notifs := st.notifs ++
        [⟨st.session.organiserId, NotifType.NEW_REQUEST, st.session.id⟩]
      nextId := st.nextId + 1 }, ?_⟩
    unfold requestSpot
    rw [if_neg horg, if_neg (by simp [hact]), if_neg (by simp [hpast]),
      if_pos hopen]
  · intro st' hok
    obtain ⟨-, -, -, -, rfl⟩ := requestSpot_ok st a st' hok
    rfl
  · rintro ⟨st', hok⟩
    exact (joinReserve_ok st a st' hok).2.2.2.1
  · intro hfull
    refine ⟨{ st with
      parts := st.parts ++
        [⟨st.nextId, st.session.id, a.id, PStatus.RESERVE, st.nextId⟩]
      notifs := st.notifs ++
        [⟨st.session.organiserId, NotifType.NEW_RESERVE, st.session.id⟩]
      nextId := st.nextId + 1 }, ?_⟩
    unfold joinReserve
    rw [if_neg horg, if_neg (by simp [hact]), if_neg (by simp [hpast]),
      if_pos hfull]
  · intro st' hok
    obtain ⟨-, -, -, -, rfl⟩ := joinReserve_ok st a st' hok
    rfl

/-- Witness for `request_reserve_paths`: an OPEN two-slot session accepts a
request from user 2 and creates the REQUESTED record. -/
theorem request_reserve_paths_witness :
    (∃ st', requestSpot (initState ⟨0, 1, 2, false, false⟩) ⟨2, false⟩ =
      .ok st') ∧
    (∀ st', requestSpot (initState ⟨0, 1, 2, false, false⟩) ⟨2, false⟩ =
        .ok st' →
      st'.parts = [⟨0, 0, 2, PStatus.REQUESTED, 0⟩]) := by
  obtain ⟨⟨-, hfwd⟩, hcreate, -, -⟩ := request_reserve_paths
    (initState ⟨0, 1, 2, false, false⟩) ⟨2, false⟩ (by decide) rfl rfl
  exact ⟨hfwd (by decide), fun st' hok => hcreate st' hok⟩

/-- C2: for every session and participation set, the Capacity Calculator
yields `status = FULL` iff `open_slots = 0`, and `status = OPEN` iff
`open_slots ≠ 0`; since `status` and `open_slots` are both derived from the
same Participation set by `compute` after every mutation, no operation can
decouple them. -/
theorem status_full_iff_no_open_slots (s : Session) (ps : List Participation) :
    ((compute s ps).status = SStatus.FULL ↔ (compute s ps).open_slots = 0) ∧
    ((compute s ps).status = SStatus.OPEN ↔ (compute s ps).open_slots ≠ 0) := by
  simp only [compute]
  split
  · simp_all
  · simp_all

/-- C7: a request-spot or join-reserve action whose actor is the session's
organiser fails with `NotAuthorized`, returning an error and hence creating
no Participation. -/
theorem organiser_cannot_join (st : CoreState) (a : Actor)
    (h : a.id = st.session.organiserId) :
    requestSpot st a = .error CoreError.NotAuthorized ∧
    joinReserve st a = .error CoreError.NotAuthorized := by
  constructor
  · simp [requestSpot, h]
  · simp [joinReserve, h]

/-- Witness for `organiser_cannot_join` at a concrete state. -/
theorem organiser_cannot_join_witness :
    ((7 : Nat) = (initState ⟨1, 7, 4, false, false⟩).session.organiserId) ∧
    requestSpot (initState ⟨1, 7, 4, false, false⟩) ⟨7, false⟩ =
      .error CoreError.NotAuthorized ∧
    joinReserve (initState ⟨1, 7, 4, false, false⟩) ⟨7, false⟩ =
      .error CoreError.NotAuthorized :=
  ⟨by decide,
    organiser_cannot_join (initState ⟨1, 7, 4, false, false⟩) ⟨7, false⟩
      (by decide)⟩

/-- The game-detail badge's emoji as a bare conditional. -/
theorem gameDetail_emoji (g : Nat) :
    (GameDetail.getReliabilityBadge g).emoji =
      if g = 0 then "🔵" else if g ≤ 5 then "🟡" else "🟢" := by
  unfold GameDetail.getReliabilityBadge
  split_ifs <;> rfl

/-- The admin-page badge's emoji as a bare conditional. -/
theorem adminPage_emoji (g : Nat) :
    (AdminPage.getReliabilityBadge g).emoji =
      if g = 0 then "🔵" else if g ≤ 5 then "🟡" else "🟢" := by
  unfold AdminPage.getReliabilityBadge
  split_ifs <;> rfl

/-- The profile-layout badge's emoji as a bare conditional. -/
theorem profileLayout_emoji (g : Nat) :
    (ProfileLayout.getReliabilityBadge g).emoji =
      if g = 0 then "🔵" else if g ≤ 5 then "🟡" else "🟢" := by
  unfold ProfileLayout.getReliabilityBadge
  split_ifs <;> rfl

/-- C9: each of the three `getReliabilityBadge` copies (game-detail page,
admin page, profile page) returns the 🔵 tier iff `gamesPlayed = 0`, the 🟡
tier iff `1 ≤ gamesPlayed ≤ 5`, and the 🟢 tier iff `gamesPlayed > 5`, and
all three copies assign every input the same tier emoji. -/
theorem reliability_badge_tiers (g : Nat) :
    ((GameDetail.getReliabilityBadge g).emoji = "🔵" ↔ g = 0) ∧
    ((GameDetail.getReliabilityBadge g).emoji = "🟡" ↔ 1 ≤ g ∧ g ≤ 5) ∧
    ((GameDetail.getReliabilityBadge g).emoji = "🟢" ↔ 5 < g) ∧
    (AdminPage.getReliabilityBadge g).emoji =
      (GameDetail.getReliabilityBadge g).emoji ∧
    (ProfileLayout.getReliabilityBadge g).emoji =
      (GameDetail.getReliabilityBadge g).emoji := by
  rw [gameDetail_emoji, adminPage_emoji, profileLayout_emoji]
  split_ifs with h1 h2
  · exact ⟨⟨fun _ => h1, fun _ => rfl⟩,
      ⟨fun h => absurd h (by decide), fun hc => absurd h1 (by omega)⟩,
      ⟨fun h => absurd h (by decide), fun hc => absurd h1 (by omega)⟩,
      rfl, rfl⟩
  · exact ⟨⟨fun h => absurd h (by decide), fun h => absurd h h1⟩,
      ⟨fun _ => ⟨by omega, h2⟩, fun _ => rfl⟩,
      ⟨fun h => absurd h (by decide), fun hc => absurd h2 (by omega)⟩,
      rfl, rfl⟩
  · exact ⟨⟨fun h => absurd h (by decide), fun h => absurd h h1⟩,
      ⟨fun h => absurd h (by decide), fun hc => absurd hc.2 h2⟩,
      ⟨fun _ => by omega, fun _ => rfl⟩,
      rfl, rfl⟩

/-- C10: the client-side state update of `markAsRead` keeps the list's
length and order; at every position, a notification whose id equals the
argument gets `read = true` with all other fields unchanged, and a
notification with a different id is entirely unchanged. -/
theorem markAsRead_frame (i : String) (l : List NotificationsPage.Notif) :
    (NotificationsPage.markAsRead i l).length = l.length ∧
    ∀ (k : Nat) (h : k < l.length)
      (h2 : k < (NotificationsPage.markAsRead i l).length),
      ((l.get ⟨k, h⟩).id = i →
        ((NotificationsPage.markAsRead i l).get ⟨k, h2⟩).read = true ∧
        ((NotificationsPage.markAsRead i l).get ⟨k, h2⟩).id =
          (l.get ⟨k, h⟩).id ∧
        ((NotificationsPage.markAsRead i l).get ⟨k, h2⟩).kind =
          (l.get ⟨k, h⟩).kind ∧
        ((NotificationsPage.markAsRead i l).get ⟨k, h2⟩).message =
          (l.get ⟨k, h⟩).message ∧
        ((NotificationsPage.markAsRead i l).get ⟨k, h2⟩).game_id =
          (l.get ⟨k, h⟩).game_id ∧
        ((NotificationsPage.markAsRead i l).get ⟨k, h2⟩).created_at =
          (l.get ⟨k, h⟩).created_at) ∧
      ((l.get ⟨k, h⟩).id ≠ i →
        (NotificationsPage.markAsRead i l).get ⟨k, h2⟩ = l.get ⟨k, h⟩) := by
  refine ⟨by simp [NotificationsPage.markAsRead], ?_⟩
  intro k h h2
  have hm : (NotificationsPage.markAsRead i l).get ⟨k, h2⟩ =
      (fun n => if n.id == i then { n with read := true } else n)
        (l.get ⟨k, h⟩) := by
    simp [NotificationsPage.markAsRead, List.get_eq_getElem]
  constructor
  · intro hid
    rw [hm]
    simp only [List.get_eq_getElem] at hid
    simp [hid]
  · intro hid
    rw [hm]
    simp only [List.get_eq_getElem] at hid
    simp [hid]

/-- Witness for `markAsRead_frame` at a concrete notification list. -/
theorem markAsRead_frame_witness :
    ((NotificationsPage.markAsRead "a"
        [⟨"a", "NEW_REQUEST", "m", none, "t", false⟩,
         ⟨"b", "PROMOTED", "n", none, "u", false⟩]).get
      ⟨0, by simp [NotificationsPage.markAsRead]⟩).read = true ∧
    (NotificationsPage.markAsRead "a"
        [⟨"a", "NEW_REQUEST", "m", none, "t", false⟩,
         ⟨"b", "PROMOTED", "n", none, "u", false⟩]).get
      ⟨1, by simp [NotificationsPage.markAsRead]⟩ =
      ⟨"b", "PROMOTED", "n", none, "u", false⟩ := by
  obtain ⟨-, hpt⟩ := markAsRead_frame "a"
    [⟨"a", "NEW_REQUEST", "m", none, "t", false⟩,
     ⟨"b", "PROMOTED", "n", none, "u", false⟩]
  exact ⟨((hpt 0 (by decide) (by decide)).1 (by decide)).1,
    (hpt 1 (by decide) (by decide)).2 (by decide)⟩

end DropoutRescue
